import Mathlib

/-!
Shallow embedding of `src/main.py` of the repository `scraping-tech-books`
(a batch scraper harvesting book records from three publisher sites),
together with proofs checking the specification's claims against it.

Modelling conventions:
* Machine-level Python values are embedded as plain Lean data: `str` as
  `String`, `int` as `Nat`/`Int`, `datetime.datetime` as the `Datetime`
  structure below, `None`-able values as `Option`.
* Python exceptions are embedded as `Except`: `ValueError` raised by
  `datetime.strptime` and `UnicodeEncodeError` raised by `str.encode`
  (both uncaught by `main`) become `PyErr`; the `requests` exceptions
  caught by `main`'s handlers become `ReqError`.
* HTML pages are abstracted to the field tuples the BeautifulSoup
  selectors of each adapter extract from them (`OreillyRow`,
  `ShoeishaItem`, `GihyoItem`, plus the list of `<p>`-element texts used
  by `no_shoeisha_items_found`); the selector layer itself is an external
  collaborator with no decision logic of its own.
* `requests.get` is abstracted as a caller-supplied fetch function.  Note
  that `requests.get` raises `ConnectionError`/`Timeout` (both subclasses
  of `RequestException`) for unreachable hosts and timeouts, but it never
  raises `HTTPError` on a non-success status: `HTTPError` is raised only
  by `Response.raise_for_status`, which `main.py` never calls.  A response
  therefore always carries its `status_code`, and the pipeline reads only
  its text.
-/

deriving instance DecidableEq for Except

namespace ScrapingTechBooks

/-- Embedding of `datetime.datetime`: the fields `strptime` fills for the
date-only formats used here, plus the tz offset in minutes installed by
`.replace(tzinfo=timezone(timedelta(hours=9)))` (`none` = naive). -/
structure Datetime where
  year : Nat
  month : Nat
  day : Nat
  hour : Nat
  minute : Nat
  second : Nat
  tzOffsetMinutes : Option Int
  deriving Repr, DecidableEq

/-- The `Book` dataclass of `src/main.py`. -/
structure Book where
  title : String
  isbn : String
  price : Option String
  url : String
  published_at : Datetime
  publisher : String
  deriving Repr, DecidableEq

/-- Exceptions uncaught by `main`: `ValueError` from `datetime.strptime`
and `UnicodeEncodeError` (a `ValueError` subclass) from `str.encode`. -/
inductive PyErr where
  | dateError (msg : String)
  | encodeError (msg : String)
  deriving Repr, DecidableEq

/-- The `RequestException` kinds `requests.get`/`requests.post` can raise
here (unreachable host, timeout); caught by `main`'s handlers. -/
inductive ReqError where
  | connectionError (msg : String)
  | timeout (msg : String)
  deriving Repr, DecidableEq

/-- Either failure channel of the pipeline body. -/
inductive RunErr where
  | req (e : ReqError)
  | py (e : PyErr)
  deriving Repr, DecidableEq

/-! ### Date parsing: `datetime.strptime` for the three formats in use

CPython's `_strptime` compiles a format into a regex: `%Y` is four digits
`\d\d\d\d`, `%m` is the ordered alternation `1[0-2]|0[1-9]|[1-9]`, `%d`
is `3[01]|[12]\d|0[1-9]|[1-9]`; literal characters match themselves, and
trailing unconverted input raises `ValueError`.  For the three formats of
`main.py` every `%m`/`%d` is followed by a non-digit literal or the end
of input, so the ordered alternation below (two digits first, then one)
never needs cross-token backtracking and is an exact embedding.  The
`datetime` constructor then validates the day against the month length
and requires `year >= 1` (`MINYEAR`). -/

/-- Numeric value of an ASCII digit character. -/
def digitVal (c : Char) : Nat := c.toNat - 48

/-- `%Y`: exactly four digits. -/
def parseY : List Char → Option (Nat × List Char)
  | a :: b :: c :: d :: rest =>
    if a.isDigit && b.isDigit && c.isDigit && d.isDigit then
      some (1000 * digitVal a + 100 * digitVal b + 10 * digitVal c + digitVal d, rest)
    else none
  | _ => none

/-- `%m`: the ordered alternation `1[0-2]|0[1-9]|[1-9]`. -/
def parseM : List Char → Option (Nat × List Char)
  | c1 :: c2 :: rest =>
    if c1 = '1' && ('0' ≤ c2 && c2 ≤ '2') then some (10 + digitVal c2, rest)
    else if c1 = '0' && ('1' ≤ c2 && c2 ≤ '9') then some (digitVal c2, rest)
    else if '1' ≤ c1 && c1 ≤ '9' then some (digitVal c1, c2 :: rest)
    else none
  | [c1] => if '1' ≤ c1 && c1 ≤ '9' then some (digitVal c1, []) else none
  | [] => none

/-- `%d`: the ordered alternation `3[01]|[12]\d|0[1-9]|[1-9]`. -/
def parseD : List Char → Option (Nat × List Char)
  | c1 :: c2 :: rest =>
    if c1 = '3' && (c2 = '0' || c2 = '1') then some (30 + digitVal c2, rest)
    else if (c1 = '1' || c1 = '2') && c2.isDigit then some (10 * digitVal c1 + digitVal c2, rest)
    else if c1 = '0' && ('1' ≤ c2 && c2 ≤ '9') then some (digitVal c2, rest)
    else if '1' ≤ c1 && c1 ≤ '9' then some (digitVal c1, c2 :: rest)
    else none
  | [c1] => if '1' ≤ c1 && c1 ≤ '9' then some (digitVal c1, []) else none
  | [] => none

/-- One token of a `strptime` format string. -/
inductive FmtTok where
  | lit (c : Char)
  | Y
  | M
  | D
  deriving Repr, DecidableEq

/-- The format `"%Y/%m/%d"` (Adapter-A / O'Reilly). -/
def fmtSlash : List FmtTok := [.Y, .lit '/', .M, .lit '/', .D]

/-- The format `"%Y年%m月%d日"` (Adapter-B / Shoeisha). -/
def fmtJa : List FmtTok := [.Y, .lit '年', .M, .lit '月', .D, .lit '日']

/-- The format `"%Y年%m月%d日発売"` (Adapter-C / Gihyo). -/
def fmtJaSale : List FmtTok := fmtJa ++ [.lit '発', .lit '売']

/-- Run a format over the input, threading the year/month/day fields
(`strptime` defaults: 1900-01-01); returns the fields and leftover. -/
def runFmt : List FmtTok → List Char → Nat → Nat → Nat → Option (Nat × Nat × Nat × List Char)
  | [], l, y, m, d => some (y, m, d, l)
  | .lit c :: toks, x :: l, y, m, d => if x = c then runFmt toks l y m d else none
  | .lit _ :: _, [], _, _, _ => none
  | .Y :: toks, l, _, m, d =>
    match parseY l with
    | some (v, l2) => runFmt toks l2 v m d
    | none => none
  | .M :: toks, l, y, _, d =>
    match parseM l with
    | some (v, l2) => runFmt toks l2 y v d
    | none => none
  | .D :: toks, l, y, m, _ =>
    match parseD l with
    | some (v, l2) => runFmt toks l2 y m v
    | none => none

/-- Number of days in a month of the proleptic Gregorian calendar. -/
def daysInMonth (y m : Nat) : Nat :=
  if m = 2 then
    if y % 4 = 0 && (y % 100 ≠ 0 || y % 400 = 0) then 29 else 28
  else if m = 4 || m = 6 || m = 9 || m = 11 then 30
  else 31

/-- Embedding of `datetime.strptime(s, fmt)` for the formats above,
including the range validation the `datetime` constructor performs. -/
def strptime (s : String) (fmt : List FmtTok) : Except String Datetime :=
  match runFmt fmt s.toList 1900 1 1 with
  | none => .error ("time data " ++ s ++ " does not match format")
  | some (y, m, d, rest) =>
    if rest ≠ [] then .error ("unconverted data remains: " ++ String.mk rest)
    else if y < 1 then .error "year 0 is out of range"
    else if d > daysInMonth y m then .error "day is out of range for month"
    else .ok ⟨y, m, d, 0, 0, 0, none⟩

/-- The JST offset installed by `.replace(tzinfo=timezone(timedelta(hours=9)))`. -/
def jstMinutes : Int := 540

/-- `dt.replace(tzinfo=timezone(timedelta(hours=9)))`. -/
def withJst (dt : Datetime) : Datetime := { dt with tzOffsetMinutes := some jstMinutes }

/-! ### Text re-encoding: `title.encode("iso-8859-1").decode("utf-8", errors="ignore")`

`str.encode("iso-8859-1")` uses the default strict error handler: it maps
each character of code point ≤ 0xFF to that byte and raises
`UnicodeEncodeError` on any character above 0xFF.  The decode side uses
`errors="ignore"`: invalid UTF-8 portions (per the maximal-valid-subpart
rule of the CPython decoder) are dropped instead of raising. -/

/-- `s.encode("iso-8859-1")` with the default strict handler. -/
def encodeLatin1 (s : String) : Except PyErr (List Nat) :=
  if s.toList.all (fun c => c.toNat ≤ 255) then
    .ok (s.toList.map Char.toNat)
  else
    .error (.encodeError "latin-1 codec cannot encode character")

/-- Is `b` a UTF-8 continuation byte `0x80..0xBF`? -/
def isCont (b : Nat) : Bool := 128 ≤ b && b ≤ 191

/-- Worker for the `errors="ignore"` UTF-8 decoder.  Each step consumes
at least one byte, so fuel equal to the byte count suffices; the fuel
only makes the recursion structural (and hence kernel-computable). -/
def utf8DecodeGo : Nat → List Nat → List Char
  | 0, _ => []
  | _, [] => []
  | fuel + 1, b :: rest =>
    if b ≤ 127 then Char.ofNat b :: utf8DecodeGo fuel rest
    else if 194 ≤ b && b ≤ 223 then
      match rest with
      | b2 :: rest2 =>
        if isCont b2 then Char.ofNat ((b - 192) * 64 + (b2 - 128)) :: utf8DecodeGo fuel rest2
        else utf8DecodeGo fuel (b2 :: rest2)
      | [] => []
    else if 224 ≤ b && b ≤ 239 then
      match rest with
      | b2 :: rest2 =>
        -- the second byte of a 3-byte sequence has lead-dependent bounds
        -- (E0: A0..BF, ED: 80..9F excluding surrogates, otherwise 80..BF)
        if (if b = 224 then 160 ≤ b2 && b2 ≤ 191
            else if b = 237 then 128 ≤ b2 && b2 ≤ 159
            else isCont b2) then
          match rest2 with
          | b3 :: rest3 =>
            if isCont b3 then
              Char.ofNat ((b - 224) * 4096 + (b2 - 128) * 64 + (b3 - 128)) :: utf8DecodeGo fuel rest3
            else utf8DecodeGo fuel (b3 :: rest3)
          | [] => []
        else utf8DecodeGo fuel (b2 :: rest2)
      | [] => []
    else if 240 ≤ b && b ≤ 244 then
      match rest with
      | b2 :: rest2 =>
        if (if b = 240 then 144 ≤ b2 && b2 ≤ 191
            else if b = 244 then 128 ≤ b2 && b2 ≤ 143
            else isCont b2) then
          match rest2 with
          | b3 :: rest3 =>
            if isCont b3 then
              match rest3 with
              | b4 :: rest4 =>
                if isCont b4 then
                  Char.ofNat ((b - 240) * 262144 + (b2 - 128) * 4096 + (b3 - 128) * 64 + (b4 - 128))
                    :: utf8DecodeGo fuel rest4
                else utf8DecodeGo fuel (b4 :: rest4)
              | [] => []
            else utf8DecodeGo fuel (b3 :: rest3)
          | [] => []
        else utf8DecodeGo fuel (b2 :: rest2)
      | [] => []
    else utf8DecodeGo fuel rest

/-- `bytes.decode("utf-8", errors="ignore")`: decode, dropping each
maximal invalid subpart instead of raising. -/
def utf8DecodeIgnore (bs : List Nat) : List Char := utf8DecodeGo bs.length bs

/-- The corrective round-trip applied to every Adapter-A title
(`src/main.py:123`): reinterpret the text as latin-1 bytes, then decode
those bytes as UTF-8, ignoring undecodable residue. -/
def reencode (s : String) : Except PyErr String :=
  (encodeLatin1 s).map (fun bs => String.mk (utf8DecodeIgnore bs))

/-! ### Price normalization: `format_price` (`src/main.py:262`)

The two patterns passed to `re.search` are `(\d{1,3}(,\d{3})*)` and
`(\d{1,3}(,\d{3})*)円`, represented here by a `Bool` saying whether the
trailing `円` glyph is required.  `re.search` returns the leftmost match;
at a given position `\d{1,3}` is greedy with backtracking, as is the
starred group `(,\d{3})*`.  `\d` is modelled as the ASCII digits these
sites print (CPython would additionally accept other Unicode decimal
digits).  `babel.numbers.format_currency(n, "JPY", locale="ja_JP")`
renders the full-width yen sign followed by the amount with groups of
three digits separated by commas. -/

/-- Greedy-first alternatives for `\d{1,3}` at the current position:
three digits, then two, then one. -/
def leadDigits (l : List Char) : List (List Char × List Char) :=
  (match l with
   | a :: b :: c :: r => if a.isDigit && b.isDigit && c.isDigit then [([a, b, c], r)] else []
   | _ => []) ++
  (match l with
   | a :: b :: r => if a.isDigit && b.isDigit then [([a, b], r)] else []
   | _ => []) ++
  (match l with
   | a :: r => if a.isDigit then [([a], r)] else []
   | _ => [])

/-- Greedy-first alternatives for `(,\d{3})*` at the current position:
each entry is (consumed text, leftover), most groups first. -/
def commaGroupSplits : List Char → List (List Char × List Char)
  | ',' :: d1 :: d2 :: d3 :: rest =>
    if d1.isDigit && d2.isDigit && d3.isDigit then
      ((commaGroupSplits rest).map (fun p => (',' :: d1 :: d2 :: d3 :: p.1, p.2))) ++
        [([], ',' :: d1 :: d2 :: d3 :: rest)]
    else [([], ',' :: d1 :: d2 :: d3 :: rest)]
  | l => [([], l)]

/-- Match the price pattern anchored at the current position, returning
capture group 1 (the digit group without the `円` glyph) on success. -/
def matchPriceAt (yen : Bool) (l : List Char) : Option (List Char) :=
  (leadDigits l).findSome? fun dp =>
    (commaGroupSplits dp.2).findSome? fun gp =>
      if yen then
        match gp.2 with
        | '円' :: _ => some (dp.1 ++ gp.1)
        | _ => none
      else some (dp.1 ++ gp.1)

/-- `re.search`: try the pattern at each position, leftmost match wins. -/
def searchPrice (yen : Bool) : List Char → Option (List Char)
  | [] => none
  | c :: rest =>
    match matchPriceAt yen (c :: rest) with
    | some g => some g
    | none => searchPrice yen rest

/-- Capture group 1 of `re.search` of the price pattern over a string. -/
def searchPriceGroup (yen : Bool) (s : String) : Option String :=
  (searchPrice yen s.toList).map String.mk

/-- `str.replace(",", "")`. -/
def stripCommas (s : String) : String :=
  String.mk (s.toList.filter (fun c => c ≠ ','))

/-- `int` on a string of ASCII digits (the only inputs it receives here:
a nonempty capture group stripped of commas). -/
def digitsToNat (s : String) : Nat :=
  s.toList.foldl (fun acc c => acc * 10 + digitVal c) 0

/-- Digit string of `n` with thousands separators, as rendered by the
CLDR `ja_JP` number pattern. -/
def groupDigits (n : Nat) : String :=
  String.mk (groupDigitsAux (Nat.toDigits 10 n).reverse).reverse
where
  /-- Insert a comma after every three digits of the reversed digit list. -/
  groupDigitsAux : List Char → List Char
    | d1 :: d2 :: d3 :: d4 :: rest => d1 :: d2 :: d3 :: ',' :: groupDigitsAux (d4 :: rest)
    | l => l

/-- `babel.numbers.format_currency(n, "JPY", locale="ja_JP")`: full-width
yen sign, grouped digits, no decimal digits for JPY. -/
def format_currency_jpy (n : Nat) : String := "￥" ++ groupDigits n

/-- `format_price` (`src/main.py:262`): extract the first substring
matching the digit-grouping pattern, strip commas, parse as an integer
and re-render as a JPY currency string; `None` when nothing matches.
(`yen = false` embeds the pattern `(\d{1,3}(,\d{3})*)` used for
Adapter-A, `yen = true` the pattern `(\d{1,3}(,\d{3})*)円` used for
Adapters B and C.  The no-match branch also prints a diagnostic, which
has no effect on the returned value and is not modelled.) -/
def format_price (currency : String) (yen : Bool) : Option String :=
  match searchPriceGroup yen currency with
  | some g => some (format_currency_jpy (digitsToNat (stripCommas g)))
  | none => none

/-! ### Site constants and URL resolution -/

def OREILLY_BASE_URL : String := "https://www.oreilly.co.jp/catalog/"

def SHOEISHA_BASE_URL : String := "https://www.shoeisha.co.jp/"

def GIHYO_BASE_URL : String := "https://gihyo.jp/"

/-- `gihyo_category_params` (`src/main.py:39`).  The Python value is a
`set`, iterated in an unspecified order; the list below fixes the literal
order of the source, on which no claim depends. -/
def gihyo_category_params : List String :=
  ["0602", "0611", "0603", "0601", "0604", "0605", "0612",
   "0607", "0608", "0609", "0701", "0704", "0705"]

/-- `str.split` on a single-character separator, at the character level
(the byte-based `String.splitOn` of core does not reduce inside the
kernel). -/
def splitOnChar (c : Char) : List Char → List (List Char)
  | [] => [[]]
  | x :: xs =>
    if x = c then [] :: splitOnChar c xs
    else
      match splitOnChar c xs with
      | seg :: segs => (x :: seg) :: segs
      | [] => [[x]]

/-- Last element of a list of character segments (`[-1]` in Python;
`split` never returns an empty list). -/
def lastSegment (d : List Char) : List (List Char) → List Char
  | [] => d
  | [x] => x
  | _ :: x :: xs => lastSegment d (x :: xs)

/-- Scheme-and-host part of a base URL. -/
def originOf (base : String) : String :=
  match splitOnChar '/' base.toList with
  | scheme :: [] :: host :: _ => String.mk scheme ++ "//" ++ String.mk host
  | _ => base

/-- Character-level prefix test (the byte-level `String.isPrefixOf` of
core does not reduce inside the kernel). -/
def strStartsWith (s p : String) : Bool := p.toList.isPrefixOf s.toList

/-- `urllib.parse.urljoin(base, rel)`, restricted to the shapes that
occur here: every base is an absolute URL ending in `/`, so a
host-relative path is appended to the base, a root-relative path is
joined to the base's origin, and an absolute URL replaces the base. -/
def urljoin (base rel : String) : String :=
  if rel = "" then base
  else if strStartsWith rel "http://" || strStartsWith rel "https://" then rel
  else if strStartsWith rel "/" then originOf base ++ rel
  else base ++ rel

/-! ### Page abstraction

A fetched page is abstracted to what the BeautifulSoup selectors of
`main.py` extract from its HTML: for Adapter-A the per-`<tr>` field
tuples of `#bookTable` rows, for Adapter-B the texts of `<p>` elements
(inspected by `no_shoeisha_items_found`) and the per-`div.textWrapper`
field tuples, for Adapter-C the per-`li.clearfix` field tuples. -/

/-- Raw fields extracted from one Adapter-A table row
(`src/main.py:116-121`). -/
structure OreillyRow where
  isbn : String
  title : String
  price : String
  dateStr : String
  url : String
  deriving Repr, DecidableEq

/-- Raw fields extracted from one Adapter-B catalog entry
(`src/main.py:153-166`). -/
structure ShoeishaItem where
  title : String
  dateStr : String
  isbn : String
  price : String
  url : String
  deriving Repr, DecidableEq

/-- Raw fields extracted from one Adapter-C catalog entry
(`src/main.py:213-223`). -/
structure GihyoItem where
  title : String
  price : String
  dateStr : String
  book_link : String
  deriving Repr, DecidableEq

/-- Everything the pipeline reads from one fetched page's text. -/
structure PageData where
  oreillyRows : List OreillyRow
  paragraphs : List String
  shoeishaItems : List ShoeishaItem
  gihyoItems : List GihyoItem
  deriving Repr, DecidableEq

/-- A `requests` response: `main` reads only `.text`; `.status_code` is
carried but never inspected by the pipeline (no `raise_for_status`). -/
structure Response where
  status_code : Nat
  text : PageData
  deriving Repr, DecidableEq

/-! ### The three adapters -/

/-- `analyze_oreilly_books` (`src/main.py:104`): one Book per table row.
Per row, the re-encoding of the title (line 123) runs before the Book
construction whose `published_at` argument calls `strptime` (line 132);
an exception in either aborts the whole call, so a row failure discards
the entire page. -/
def analyze_oreilly_books : List OreillyRow → Except PyErr (List Book)
  | [] => .ok []
  | tr :: rest => do
    let title ← reencode tr.title
    let dt ← (strptime tr.dateStr fmtSlash).mapError PyErr.dateError
    let books ← analyze_oreilly_books rest
    return { title := title
             isbn := tr.isbn
             price := format_price tr.price false
             url := urljoin OREILLY_BASE_URL tr.url
             published_at := withJst dt
             publisher := "オライリー・ジャパン" } :: books

/-- `analyze_shoeisha_books` (`src/main.py:141`): one Book per catalog
entry; a `strptime` failure aborts the whole call. -/
def analyze_shoeisha_books : List ShoeishaItem → Except PyErr (List Book)
  | [] => .ok []
  | it :: rest => do
    let dt ← (strptime it.dateStr fmtJa).mapError PyErr.dateError
    let books ← analyze_shoeisha_books rest
    return { title := it.title
             isbn := it.isbn
             price := format_price it.price true
             url := urljoin SHOEISHA_BASE_URL it.url
             published_at := withJst dt
             publisher := "翔泳社" } :: books

/-- The fixed Japanese no-results phrase of the Adapter-B site. -/
def shoeishaNoResultsPhrase : String := "該当の書籍は見つかりませんでした。"

/-- `no_shoeisha_items_found` (`src/main.py:183`): true exactly when some
`<p>` element's text contains the fixed no-results phrase. -/
def no_shoeisha_items_found (paragraphs : List String) : Bool :=
  paragraphs.any (fun t => decide (shoeishaNoResultsPhrase.toList <:+: t.toList))

/-- `analyze_gihyo_books` (`src/main.py:202`): one Book per list item;
the ISBN is the final `/`-separated segment of the detail link; a
`strptime` failure aborts the whole call. -/
def analyze_gihyo_books : List GihyoItem → Except PyErr (List Book)
  | [] => .ok []
  | it :: rest => do
    let dt ← (strptime it.dateStr fmtJaSale).mapError PyErr.dateError
    let books ← analyze_gihyo_books rest
    return { title := it.title
             isbn := String.mk (lastSegment [] (splitOnChar '/' it.book_link.toList))
             price := format_price it.price true
             url := urljoin GIHYO_BASE_URL it.book_link
             published_at := withJst dt
             publisher := "技術評論社" } :: books

/-! ### Output sinks -/

/-- Left-pad a numeral with zeros. -/
def padZero (width n : Nat) : String :=
  let s := toString n
  String.mk (List.replicate (width - s.length) '0') ++ s

/-- `published_at.strftime("%Y-%m-%d")`. -/
def strftimeDate (dt : Datetime) : String :=
  padZero 4 dt.year ++ "-" ++ padZero 2 dt.month ++ "-" ++ padZero 2 dt.day

/-- `published_at.isoformat()`: date, `T`, time, and the fixed `+09:00`
offset installed by the adapters (absent for a naive datetime). -/
def isoformat (dt : Datetime) : String :=
  strftimeDate dt ++ "T" ++ padZero 2 dt.hour ++ ":" ++ padZero 2 dt.minute ++ ":"
    ++ padZero 2 dt.second ++
    (match dt.tzOffsetMinutes with
     | none => ""
     | some off =>
       (if off < 0 then "-" else "+") ++ padZero 2 (off.natAbs / 60) ++ ":" ++ padZero 2 (off.natAbs % 60))

/-- `write_csv` (`src/main.py:240`), abstracted to the rows handed to the
CSV writer: the header of field names, then one row per Book in order,
with an absent price written as the empty field. -/
def write_csv (books : List Book) : List (List String) :=
  ["title", "isbn", "price", "url", "published_at", "publisher"] ::
    books.map (fun book =>
      [book.title, book.isbn, book.price.getD "", book.url,
       strftimeDate book.published_at, book.publisher])

/-- The JSON object `post_books` submits for one Book
(`src/main.py:291-300`). -/
structure PostPayload where
  title : String
  isbn : String
  price : Option String
  url : String
  publisher : String
  publishedAt : String
  deriving Repr, DecidableEq

/-- The payload built from a Book by `post_books`. -/
def payloadOf (book : Book) : PostPayload :=
  { title := book.title
    isbn := book.isbn
    price := book.price
    url := book.url
    publisher := book.publisher
    publishedAt := isoformat book.published_at }

/-- A response to one `requests.post` call. -/
structure PostResponse where
  status_code : Nat
  content : String
  deriving Repr, DecidableEq

/-- The body of `post_books`' loop (`src/main.py:288-309`), with the
environment abstracted as the response each submission (numbered from
`i`) receives.  Returns the payloads actually submitted, in order, and
the lines printed.  Each book is submitted before its response status is
inspected; a 409 logs and continues, any other non-201 status logs the
status and body and breaks out of the loop. -/
def postLoop (resp : Nat → PostResponse) : Nat → List Book → List PostPayload × List String
  | _, [] => ([], [])
  | i, book :: rest =>
    let r := resp i
    if r.status_code = 409 then
      let (ps, log) := postLoop resp (i + 1) rest
      (payloadOf book :: ps, "already created" :: log)
    else if r.status_code ≠ 201 then
      ([payloadOf book], ["post failed: " ++ toString r.status_code, r.content])
    else
      let (ps, log) := postLoop resp (i + 1) rest
      (payloadOf book :: ps, log)

/-- `post_books` (`src/main.py:281`): submit every accumulated Book in
order, subject to the 409/non-201 policy of `postLoop`. -/
def post_books (resp : Nat → PostResponse) (books : List Book) : List PostPayload × List String :=
  postLoop resp 0 books

/-! ### Pipeline driver (`main`, `src/main.py:56`) -/

/-- URL of Adapter-B's page `p` (`src/main.py:72`). -/
def shoeishaUrl (p : Nat) : String :=
  urljoin SHOEISHA_BASE_URL ("book/list?p=" ++ toString p)

/-- URL of Adapter-C's page `p` of category `c` (`src/main.py:83`). -/
def gihyoUrl (c : String) (p : Nat) : String :=
  urljoin GIHYO_BASE_URL ("book/genre?s=" ++ c ++ "&page=" ++ toString p)

/-- Adapter-B pagination (`src/main.py:71-78`): `for page in range(0,
501)`, fetch, break as soon as `no_shoeisha_items_found`, otherwise
extend with the analyzed page.  `fuel` is the number of loop iterations
remaining; alongside the accumulated books the model returns the number
of pages fetched, used to state the termination claims. -/
def shoeishaLoop (fetchPage : Nat → Except ReqError Response) :
    Nat → Nat → Except RunErr (List Book × Nat)
  | _, 0 => .ok ([], 0)
  | page, fuel + 1 => do
    let response ← (fetchPage page).mapError RunErr.req
    if no_shoeisha_items_found response.text.paragraphs then
      return ([], 1)
    else
      let books ← (analyze_shoeisha_books response.text.shoeishaItems).mapError RunErr.py
      let (more, n) ← shoeishaLoop fetchPage (page + 1) fuel
      return (books ++ more, n + 1)

/-- Adapter-C pagination for one category (`src/main.py:82-89`): `for
page in range(0, 101)`, fetch, analyze, break as soon as a page yields
zero records, otherwise extend.  Also returns the number of pages
fetched. -/
def gihyoLoop (fetchPage : Nat → Except ReqError Response) :
    Nat → Nat → Except RunErr (List Book × Nat)
  | _, 0 => .ok ([], 0)
  | page, fuel + 1 => do
    let response ← (fetchPage page).mapError RunErr.req
    let res ← (analyze_gihyo_books response.text.gihyoItems).mapError RunErr.py
    if res.length = 0 then
      return ([], 1)
    else
      let (more, n) ← gihyoLoop fetchPage (page + 1) fuel
      return (res ++ more, n + 1)

/-- The Adapter-C outer loop over `gihyo_category_params`
(`src/main.py:81`), each category with its own page counter from 0
capped at 101 pages. -/
def gihyoCats (fetch : String → Except ReqError Response) :
    List String → Except RunErr (List Book)
  | [] => .ok []
  | c :: cs => do
    let (books, _) ← gihyoLoop (fun p => fetch (gihyoUrl c p)) 0 101
    let more ← gihyoCats fetch cs
    return books ++ more

/-- The fetch-and-extract phase of `main` (`src/main.py:64-89`): the
single Adapter-A page, then Adapter-B pagination, then Adapter-C per
category, accumulating `result` in that order.  A `ReqError` raised by
any fetch, or a `PyErr` raised by any adapter, aborts the phase. -/
def fetchPhase (fetch : String → Except ReqError Response) : Except RunErr (List Book) := do
  let response ← (fetch OREILLY_BASE_URL).mapError RunErr.req
  let oreilly ← (analyze_oreilly_books response.text.oreillyRows).mapError RunErr.py
  let (shoeisha, _) ← shoeishaLoop (fun p => fetch (shoeishaUrl p)) 0 501
  let gihyo ← gihyoCats fetch gihyo_category_params
  return oreilly ++ shoeisha ++ gihyo

/-- Diagnostic text of a caught `RequestException`. -/
def reqErrStr : ReqError → String
  | .connectionError m => m
  | .timeout m => m

/-- What one whole run amounts to. -/
inductive RunOutcome where
  | exitedWithError (code : Nat) (msg : String)
  | uncaught (e : PyErr)
  | completed (csvRows : Option (List (List String)))
      (posted : Option (List PostPayload × List String))
  deriving Repr, DecidableEq

/-- `main` (`src/main.py:56`), parameterized by the page fetcher, the
optional `--post` argument, and the responses of the submission
endpoint.  The `try` body runs the fetch phase and then exactly one
sink; `except HTTPError`/`except RequestException` print a diagnostic
and `exit(1)` (only the latter is reachable: `requests.get` raises
`HTTPError` only from `raise_for_status`, which is never called).  A
`ValueError` from `strptime` or a `UnicodeEncodeError` from `str.encode`
matches neither handler and escapes `main`. -/
def main (fetch : String → Except ReqError Response) (postArg : Option String)
    (resp : Nat → PostResponse) : RunOutcome :=
  match fetchPhase fetch with
  | .error (.req e) =>
    .exitedWithError 1 ("RequestException error occurred: " ++ reqErrStr e)
  | .error (.py e) => .uncaught e
  | .ok result =>
    match postArg with
    | none => .completed (some (write_csv result)) none
    | some _ => .completed none (some (post_books resp result))

/-! ### Derived date predicates -/

/-- A valid proleptic-Gregorian calendar date at day precision. -/
def validBookDate (dt : Datetime) : Prop :=
  1 ≤ dt.year ∧ 1 ≤ dt.month ∧ dt.month ≤ 12 ∧ 1 ≤ dt.day ∧
    dt.day ≤ daysInMonth dt.year dt.month

/-- The time-of-day and zone parts carry no information: every adapter
leaves them at the constants midnight and the fixed +09:00 offset. -/
def dayPrecisionJst (dt : Datetime) : Prop :=
  dt.hour = 0 ∧ dt.minute = 0 ∧ dt.second = 0 ∧ dt.tzOffsetMinutes = some jstMinutes

/-! ### Helper lemmas about the date parser -/

theorem parseM_bounds : ∀ (l : List Char) (v : Nat) (r : List Char),
    parseM l = some (v, r) → 1 ≤ v ∧ v ≤ 12 := by
  intro l v r h
  match l with
  | [] => simp [parseM] at h
  | [c1] =>
    simp only [parseM] at h
    split at h
    · rename_i hc
      simp at hc
      have h1 : 49 ≤ c1.toNat := hc.1
      have h2 : c1.toNat ≤ 57 := hc.2
      injection h with h
      injection h with hv hr
      subst hv
      unfold digitVal
      omega
    · exact absurd h (by simp)
  | c1 :: c2 :: rest =>
    simp only [parseM] at h
    split at h
    · rename_i hc
      simp at hc
      have h1 : 48 ≤ c2.toNat := hc.2.1
      have h2 : c2.toNat ≤ 50 := hc.2.2
      injection h with h
      injection h with hv hr
      subst hv
      unfold digitVal
      omega
    · split at h
      · rename_i hc
        simp at hc
        have h1 : 49 ≤ c2.toNat := hc.2.1
        have h2 : c2.toNat ≤ 57 := hc.2.2
        injection h with h
        injection h with hv hr
        subst hv
        unfold digitVal
        omega
      · split at h
        · rename_i hc
          simp at hc
          have h1 : 49 ≤ c1.toNat := hc.1
          have h2 : c1.toNat ≤ 57 := hc.2
          injection h with h
          injection h with hv hr
          subst hv
          unfold digitVal
          omega
        · exact absurd h (by simp)

theorem parseD_bounds : ∀ (l : List Char) (v : Nat) (r : List Char),
    parseD l = some (v, r) → 1 ≤ v ∧ v ≤ 31 := by
  intro l v r h
  match l with
  | [] => simp [parseD] at h
  | [c1] =>
    simp only [parseD] at h
    split at h
    · rename_i hc
      simp at hc
      have h1 : 49 ≤ c1.toNat := hc.1
      have h2 : c1.toNat ≤ 57 := hc.2
      injection h with h
      injection h with hv hr
      subst hv
      unfold digitVal
      omega
    · exact absurd h (by simp)
  | c1 :: c2 :: rest =>
    simp only [parseD] at h
    split at h
    · rename_i hc
      simp at hc
      injection h with h
      injection h with hv hr
      subst hv
      rcases hc.2 with h0 | h1 <;> subst_vars <;> simp [digitVal]
    · split at h
      · rename_i hc
        simp [Char.isDigit] at hc
        have h1 : 48 ≤ c2.toNat := hc.2.1
        have h2 : c2.toNat ≤ 57 := hc.2.2
        injection h with h
        injection h with hv hr
        subst hv
        rcases hc.1 with h0 | h0 <;> subst_vars <;> unfold digitVal <;> simp <;> omega
      · split at h
        · rename_i hc
          simp at hc
          have h1 : 49 ≤ c2.toNat := hc.2.1
          have h2 : c2.toNat ≤ 57 := hc.2.2
          injection h with h
          injection h with hv hr
          subst hv
          unfold digitVal
          omega
        · split at h
          · rename_i hc
            simp at hc
            have h1 : 49 ≤ c1.toNat := hc.1
            have h2 : c1.toNat ≤ 57 := hc.2
            injection h with h
            injection h with hv hr
            subst hv
            unfold digitVal
            omega
          · exact absurd h (by simp)

theorem runFmt_bounds : ∀ (toks : List FmtTok) (l : List Char) (y m d y2 m2 d2 : Nat)
    (r : List Char), runFmt toks l y m d = some (y2, m2, d2, r) →
    1 ≤ m → m ≤ 12 → 1 ≤ d → d ≤ 31 →
    1 ≤ m2 ∧ m2 ≤ 12 ∧ 1 ≤ d2 ∧ d2 ≤ 31 := by
  intro toks
  induction toks with
  | nil =>
    intro l y m d y2 m2 d2 r h hm1 hm2 hd1 hd2
    simp only [runFmt] at h
    injection h with h
    injection h with hy h
    injection h with hm h
    injection h with hd hr
    subst hm; subst hd
    exact ⟨hm1, hm2, hd1, hd2⟩
  | cons tok toks ih =>
    intro l y m d y2 m2 d2 r h hm1 hm2 hd1 hd2
    match tok with
    | .lit c =>
      match l with
      | [] => simp [runFmt] at h
      | x :: l2 =>
        simp only [runFmt] at h
        split at h
        · exact ih l2 y m d y2 m2 d2 r h hm1 hm2 hd1 hd2
        · exact absurd h (by simp)
    | .Y =>
      simp only [runFmt] at h
      cases hp : parseY l with
      | none => rw [hp] at h; simp at h
      | some p =>
        rw [hp] at h
        exact ih p.2 p.1 m d y2 m2 d2 r h hm1 hm2 hd1 hd2
    | .M =>
      simp only [runFmt] at h
      cases hp : parseM l with
      | none => rw [hp] at h; simp at h
      | some p =>
        rw [hp] at h
        have hb := parseM_bounds l p.1 p.2 (by rw [hp])
        exact ih p.2 y p.1 d y2 m2 d2 r h hb.1 hb.2 hd1 hd2
    | .D =>
      simp only [runFmt] at h
      cases hp : parseD l with
      | none => rw [hp] at h; simp at h
      | some p =>
        rw [hp] at h
        have hb := parseD_bounds l p.1 p.2 (by rw [hp])
        exact ih p.2 y m p.1 y2 m2 d2 r h hm1 hm2 hb.1 hb.2

theorem strptime_ok_props : ∀ (s : String) (fmt : List FmtTok) (dt : Datetime),
    strptime s fmt = .ok dt →
    validBookDate dt ∧ dt.hour = 0 ∧ dt.minute = 0 ∧ dt.second = 0 ∧
      dt.tzOffsetMinutes = none := by
  intro s fmt dt h
  unfold strptime at h
  cases hr : runFmt fmt s.toList 1900 1 1 with
  | none => rw [hr] at h; simp at h
  | some q =>
    rw [hr] at h
    obtain ⟨y, m, d, rest⟩ := q
    have hb := runFmt_bounds fmt s.toList 1900 1 1 y m d rest hr (by omega) (by omega)
      (by omega) (by omega)
    simp only at h
    split at h
    · exact absurd h (by simp)
    · split at h
      · exact absurd h (by simp)
      · split at h
        · exact absurd h (by simp)
        · rename_i hrest hy hd
          injection h with h
          subst h
          refine ⟨⟨?_, hb.1, hb.2.1, hb.2.2.1, ?_⟩, rfl, rfl, rfl, rfl⟩
          · show 1 ≤ y
            omega
          · show d ≤ daysInMonth y m
            omega

/-- `withJst` keeps the calendar fields and zeroed time parts and
installs the fixed +09:00 offset. -/
theorem strptime_withJst_props : ∀ (s : String) (fmt : List FmtTok) (dt : Datetime),
    strptime s fmt = .ok dt →
    validBookDate (withJst dt) ∧ dayPrecisionJst (withJst dt) := by
  intro s fmt dt h
  have hp := strptime_ok_props s fmt dt h
  exact ⟨⟨hp.1.1, hp.1.2.1, hp.1.2.2.1, hp.1.2.2.2.1, hp.1.2.2.2.2⟩,
    hp.2.1, hp.2.2.1, hp.2.2.2.1, rfl⟩

/-! ### Helper lemmas about the adapters -/

theorem analyze_oreilly_ok_dates : ∀ (rows : List OreillyRow) (books : List Book),
    analyze_oreilly_books rows = .ok books →
    ∀ b ∈ books, validBookDate b.published_at ∧ dayPrecisionJst b.published_at := by
  intro rows
  induction rows with
  | nil =>
    intro books h b hb
    simp only [analyze_oreilly_books] at h
    injection h with h
    subst h
    simp at hb
  | cons tr rest ih =>
    intro books h b hb
    simp only [analyze_oreilly_books] at h
    cases hre : reencode tr.title with
    | error e => rw [hre] at h; simp [Bind.bind, Except.bind] at h
    | ok title =>
      rw [hre] at h
      cases hdt : strptime tr.dateStr fmtSlash with
      | error e => rw [hdt] at h; simp [Bind.bind, Except.bind, Except.mapError] at h
      | ok dt =>
        rw [hdt] at h
        cases hrec : analyze_oreilly_books rest with
        | error e => rw [hrec] at h; simp [Bind.bind, Except.bind, Except.mapError] at h
        | ok bs =>
          rw [hrec] at h
          simp [Bind.bind, Except.bind, Except.mapError, pure, Except.pure] at h
          subst h
          simp at hb
          rcases hb with hb | hb
          · subst hb
            exact strptime_withJst_props _ _ _ hdt
          · exact ih bs hrec b hb

theorem analyze_shoeisha_ok_dates : ∀ (items : List ShoeishaItem) (books : List Book),
    analyze_shoeisha_books items = .ok books →
    ∀ b ∈ books, validBookDate b.published_at ∧ dayPrecisionJst b.published_at := by
  intro items
  induction items with
  | nil =>
    intro books h b hb
    simp only [analyze_shoeisha_books] at h
    injection h with h
    subst h
    simp at hb
  | cons it rest ih =>
    intro books h b hb
    simp only [analyze_shoeisha_books] at h
    cases hdt : strptime it.dateStr fmtJa with
    | error e => rw [hdt] at h; simp [Bind.bind, Except.bind, Except.mapError] at h
    | ok dt =>
      rw [hdt] at h
      cases hrec : analyze_shoeisha_books rest with
      | error e => rw [hrec] at h; simp [Bind.bind, Except.bind, Except.mapError] at h
      | ok bs =>
        rw [hrec] at h
        simp [Bind.bind, Except.bind, Except.mapError, pure, Except.pure] at h
        subst h
        simp at hb
        rcases hb with hb | hb
        · subst hb
          exact strptime_withJst_props _ _ _ hdt
        · exact ih bs hrec b hb

theorem analyze_gihyo_ok_dates : ∀ (items : List GihyoItem) (books : List Book),
    analyze_gihyo_books items = .ok books →
    ∀ b ∈ books, validBookDate b.published_at ∧ dayPrecisionJst b.published_at := by
  intro items
  induction items with
  | nil =>
    intro books h b hb
    simp only [analyze_gihyo_books] at h
    injection h with h
    subst h
    simp at hb
  | cons it rest ih =>
    intro books h b hb
    simp only [analyze_gihyo_books] at h
    cases hdt : strptime it.dateStr fmtJaSale with
    | error e => rw [hdt] at h; simp [Bind.bind, Except.bind, Except.mapError] at h
    | ok dt =>
      rw [hdt] at h
      cases hrec : analyze_gihyo_books rest with
      | error e => rw [hrec] at h; simp [Bind.bind, Except.bind, Except.mapError] at h
      | ok bs =>
        rw [hrec] at h
        simp [Bind.bind, Except.bind, Except.mapError, pure, Except.pure] at h
        subst h
        simp at hb
        rcases hb with hb | hb
        · subst hb
          exact strptime_withJst_props _ _ _ hdt
        · exact ih bs hrec b hb

theorem analyze_oreilly_error_of_bad_date : ∀ (rows : List OreillyRow),
    (∃ r ∈ rows, ∃ e, strptime r.dateStr fmtSlash = .error e) →
    ∃ e2, analyze_oreilly_books rows = .error e2 := by
  intro rows
  induction rows with
  | nil =>
    rintro ⟨r, hr, _⟩
    simp at hr
  | cons tr rest ih =>
    rintro ⟨r, hr, e, he⟩
    simp only [analyze_oreilly_books]
    cases hre : reencode tr.title with
    | error e2 => exact ⟨e2, by simp [Bind.bind, Except.bind]⟩
    | ok title =>
      rcases List.mem_cons.mp hr with hr | hr
      · subst hr
        exact ⟨.dateError e, by simp [Bind.bind, Except.bind, Except.mapError, he]⟩
      · cases hdt : strptime tr.dateStr fmtSlash with
        | error e3 =>
          exact ⟨.dateError e3, by simp [Bind.bind, Except.bind, Except.mapError, hdt]⟩
        | ok dt =>
          obtain ⟨e4, h4⟩ := ih ⟨r, hr, e, he⟩
          exact ⟨e4, by simp [Bind.bind, Except.bind, Except.mapError, hdt, h4]⟩

theorem analyze_shoeisha_error_of_bad_date : ∀ (items : List ShoeishaItem),
    (∃ r ∈ items, ∃ e, strptime r.dateStr fmtJa = .error e) →
    ∃ e2, analyze_shoeisha_books items = .error e2 := by
  intro items
  induction items with
  | nil =>
    rintro ⟨r, hr, _⟩
    simp at hr
  | cons it rest ih =>
    rintro ⟨r, hr, e, he⟩
    simp only [analyze_shoeisha_books]
    rcases List.mem_cons.mp hr with hr | hr
    · subst hr
      exact ⟨.dateError e, by simp [Bind.bind, Except.bind, Except.mapError, he]⟩
    · cases hdt : strptime it.dateStr fmtJa with
      | error e3 =>
        exact ⟨.dateError e3, by simp [Bind.bind, Except.bind, Except.mapError, hdt]⟩
      | ok dt =>
        obtain ⟨e4, h4⟩ := ih ⟨r, hr, e, he⟩
        exact ⟨e4, by simp [Bind.bind, Except.bind, Except.mapError, hdt, h4]⟩

theorem analyze_gihyo_error_of_bad_date : ∀ (items : List GihyoItem),
    (∃ r ∈ items, ∃ e, strptime r.dateStr fmtJaSale = .error e) →
    ∃ e2, analyze_gihyo_books items = .error e2 := by
  intro items
  induction items with
  | nil =>
    rintro ⟨r, hr, _⟩
    simp at hr
  | cons it rest ih =>
    rintro ⟨r, hr, e, he⟩
    simp only [analyze_gihyo_books]
    rcases List.mem_cons.mp hr with hr | hr
    · subst hr
      exact ⟨.dateError e, by simp [Bind.bind, Except.bind, Except.mapError, he]⟩
    · cases hdt : strptime it.dateStr fmtJaSale with
      | error e3 =>
        exact ⟨.dateError e3, by simp [Bind.bind, Except.bind, Except.mapError, hdt]⟩
      | ok dt =>
        obtain ⟨e4, h4⟩ := ih ⟨r, hr, e, he⟩
        exact ⟨e4, by simp [Bind.bind, Except.bind, Except.mapError, hdt, h4]⟩

/-- Shape of the Book an Adapter-B entry yields when its date parses:
the record is produced whatever `format_price` returns. -/
theorem analyze_shoeisha_single : ∀ (it : ShoeishaItem) (dt : Datetime),
    strptime it.dateStr fmtJa = .ok dt →
    analyze_shoeisha_books [it] =
      .ok [⟨it.title, it.isbn, format_price it.price true,
        urljoin SHOEISHA_BASE_URL it.url, withJst dt, "翔泳社"⟩] := by
  intro it dt h
  simp [analyze_shoeisha_books, h, Bind.bind, Except.bind, Except.mapError, pure, Except.pure]

/-! ### Helper lemmas about the pagination loops -/

theorem shoeishaLoop_count_le : ∀ (fp : Nat → Except ReqError Response) (fuel page : Nat)
    (out : List Book × Nat), shoeishaLoop fp page fuel = .ok out → out.2 ≤ fuel := by
  intro fp fuel
  induction fuel with
  | zero =>
    intro page out h
    simp only [shoeishaLoop] at h
    injection h with h
    subst h
    simp
  | succ fuel ih =>
    intro page out h
    simp only [shoeishaLoop] at h
    cases hf : fp page with
    | error e =>
      simp only [hf, Bind.bind, Except.bind, Except.mapError] at h
      exact absurd h (by simp)
    | ok resp =>
      simp only [hf, Bind.bind, Except.bind, Except.mapError] at h
      by_cases hp : no_shoeisha_items_found resp.text.paragraphs
      · simp only [hp, if_true, pure, Except.pure] at h
        injection h with h
        subst h
        simp
      · simp only [hp, if_false, Bool.false_eq_true] at h
        cases ha : analyze_shoeisha_books resp.text.shoeishaItems with
        | error e =>
          simp only [ha, Except.mapError, Bind.bind, Except.bind] at h
          exact absurd h (by simp)
        | ok books =>
          simp only [ha, Except.mapError, Bind.bind, Except.bind] at h
          cases hrec : shoeishaLoop fp (page + 1) fuel with
          | error e =>
            simp only [hrec] at h
            exact absurd h (by simp)
          | ok q =>
            simp only [hrec, pure, Except.pure] at h
            injection h with h
            subst h
            have := ih (page + 1) q hrec
            simp
            omega

theorem shoeishaLoop_stop : ∀ (g : Nat → Response) (bs : Nat → List Book) (k page fuel : Nat),
    k < fuel →
    (∀ p, p < k → no_shoeisha_items_found (g (page + p)).text.paragraphs = false) →
    (∀ p, p < k → analyze_shoeisha_books (g (page + p)).text.shoeishaItems = .ok (bs (page + p))) →
    no_shoeisha_items_found (g (page + k)).text.paragraphs = true →
    shoeishaLoop (fun p => .ok (g p)) page fuel =
      .ok (((List.range k).map (fun i => bs (page + i))).flatten, k + 1) := by
  intro g bs k
  induction k with
  | zero =>
    intro page fuel hk hf ha hl
    match fuel, hk with
    | fuel + 1, _ =>
      rw [Nat.add_zero] at hl
      simp only [shoeishaLoop, Bind.bind, Except.bind, Except.mapError, hl, if_true,
        List.range_zero, List.map_nil, List.flatten_nil, pure, Except.pure]
  | succ k ih =>
    intro page fuel hk hf ha hl
    match fuel, hk with
    | fuel + 1, _ =>
      have hf0 : no_shoeisha_items_found (g page).text.paragraphs = false := by
        have h0 := hf 0 (Nat.succ_pos k)
        rwa [Nat.add_zero] at h0
      have ha0 : analyze_shoeisha_books (g page).text.shoeishaItems = .ok (bs page) := by
        have h0 := ha 0 (Nat.succ_pos k)
        rwa [Nat.add_zero] at h0
      have hshift : ∀ p : Nat, page + 1 + p = page + (p + 1) := by omega
      have hrec := ih (page + 1) fuel (by omega)
        (fun p hp => by rw [hshift p]; exact hf (p + 1) (by omega))
        (fun p hp => by rw [hshift p]; exact ha (p + 1) (by omega))
        (by rw [hshift k]; exact hl)
      simp only [shoeishaLoop, Bind.bind, Except.bind, Except.mapError, hf0,
        Bool.false_eq_true, if_false, ha0, hrec, pure, Except.pure]
      rw [List.range_succ_eq_map]
      simp only [List.map_cons, List.map_map, Function.comp, Nat.add_zero, List.flatten_cons]
      rw [show ((fun i => bs (page + i)) ∘ Nat.succ) = (fun i => bs (page + 1 + i)) from by
        funext i
        show bs (page + (i + 1)) = bs (page + 1 + i)
        congr 1
        omega]

theorem gihyoLoop_count_le : ∀ (fp : Nat → Except ReqError Response) (fuel page : Nat)
    (out : List Book × Nat), gihyoLoop fp page fuel = .ok out → out.2 ≤ fuel := by
  intro fp fuel
  induction fuel with
  | zero =>
    intro page out h
    simp only [gihyoLoop] at h
    injection h with h
    subst h
    simp
  | succ fuel ih =>
    intro page out h
    simp only [gihyoLoop] at h
    cases hf : fp page with
    | error e =>
      simp only [hf, Bind.bind, Except.bind, Except.mapError] at h
      exact absurd h (by simp)
    | ok resp =>
      simp only [hf, Bind.bind, Except.bind, Except.mapError] at h
      cases ha : analyze_gihyo_books resp.text.gihyoItems with
      | error e =>
        simp only [ha, Except.mapError, Bind.bind, Except.bind] at h
        exact absurd h (by simp)
      | ok res =>
        simp only [ha, Except.mapError, Bind.bind, Except.bind] at h
        by_cases hz : res.length = 0
        · simp only [hz, if_true, pure, Except.pure] at h
          injection h with h
          subst h
          simp
        · simp only [hz, if_false] at h
          cases hrec : gihyoLoop fp (page + 1) fuel with
          | error e =>
            simp only [hrec] at h
            exact absurd h (by simp)
          | ok q =>
            simp only [hrec, pure, Except.pure] at h
            injection h with h
            subst h
            have := ih (page + 1) q hrec
            simp
            omega

theorem gihyoLoop_stop : ∀ (g : Nat → Response) (bs : Nat → List Book) (k page fuel : Nat),
    k < fuel →
    (∀ p, p < k → analyze_gihyo_books (g (page + p)).text.gihyoItems = .ok (bs (page + p))) →
    (∀ p, p < k → bs (page + p) ≠ []) →
    analyze_gihyo_books (g (page + k)).text.gihyoItems = .ok [] →
    gihyoLoop (fun p => .ok (g p)) page fuel =
      .ok (((List.range k).map (fun i => bs (page + i))).flatten, k + 1) := by
  intro g bs k
  induction k with
  | zero =>
    intro page fuel hk ha hne hz
    match fuel, hk with
    | fuel + 1, _ =>
      rw [Nat.add_zero] at hz
      simp only [gihyoLoop, Bind.bind, Except.bind, Except.mapError, hz, List.length_nil,
        if_true, List.range_zero, List.map_nil, List.flatten_nil, pure, Except.pure]
  | succ k ih =>
    intro page fuel hk ha hne hz
    match fuel, hk with
    | fuel + 1, _ =>
      have ha0 : analyze_gihyo_books (g page).text.gihyoItems = .ok (bs page) := by
        have h0 := ha 0 (Nat.succ_pos k)
        rwa [Nat.add_zero] at h0
      have hne0 : (bs page).length ≠ 0 := by
        have h0 := hne 0 (Nat.succ_pos k)
        rw [Nat.add_zero] at h0
        simpa using h0
      have hshift : ∀ p : Nat, page + 1 + p = page + (p + 1) := by omega
      have hrec := ih (page + 1) fuel (by omega)
        (fun p hp => by rw [hshift p]; exact ha (p + 1) (by omega))
        (fun p hp => by rw [hshift p]; exact hne (p + 1) (by omega))
        (by rw [hshift k]; exact hz)
      simp only [gihyoLoop, Bind.bind, Except.bind, Except.mapError, ha0, hne0, if_false,
        hrec, pure, Except.pure]
      rw [List.range_succ_eq_map]
      simp only [List.map_cons, List.map_map, Function.comp, Nat.add_zero, List.flatten_cons]
      rw [show ((fun i => bs (page + i)) ∘ Nat.succ) = (fun i => bs (page + 1 + i)) from by
        funext i
        show bs (page + (i + 1)) = bs (page + 1 + i)
        congr 1
        omega]

/-! ### Helper lemmas about the submission loop -/

/-- A response status the submission loop survives: "created" or the
conflict the loop logs and skips. -/
def notFatal (r : PostResponse) : Prop :=
  r.status_code = 201 ∨ r.status_code = 409

instance (r : PostResponse) : Decidable (notFatal r) := by
  unfold notFatal
  infer_instance

theorem postLoop_sends_in_order : ∀ (resp : Nat → PostResponse) (books : List Book) (i : Nat),
    (postLoop resp i books).1 =
      (books.map payloadOf).take (postLoop resp i books).1.length := by
  intro resp books
  induction books with
  | nil => intro i; simp [postLoop]
  | cons b rest ih =>
    intro i
    simp only [postLoop]
    by_cases h409 : (resp i).status_code = 409
    · simp only [h409, if_true]
      simp only [List.map_cons, List.length_cons, List.take_succ_cons]
      exact congrArg _ (ih (i + 1))
    · by_cases h201 : (resp i).status_code = 201
      · simp only [h409, if_false, h201, ne_eq, not_true_eq_false, if_true]
        simp only [List.map_cons, List.length_cons, List.take_succ_cons]
        exact congrArg _ (ih (i + 1))
      · simp [h409, h201]

theorem postLoop_all_ok : ∀ (resp : Nat → PostResponse) (books : List Book) (i : Nat),
    (∀ j, j < books.length → notFatal (resp (i + j))) →
    (postLoop resp i books).1 = books.map payloadOf := by
  intro resp books
  induction books with
  | nil => intro i _; simp [postLoop]
  | cons b rest ih =>
    intro i hok
    have h0 : notFatal (resp i) := by
      have := hok 0 (by simp)
      rwa [Nat.add_zero] at this
    have hrec := ih (i + 1) (fun j hj => by
      have := hok (j + 1) (by simp; omega)
      rwa [show i + (j + 1) = i + 1 + j from by omega] at this)
    simp only [postLoop]
    rcases h0 with h0 | h0
    · rw [if_neg (by simp [h0]), if_neg (by simp [h0])]
      simp [hrec]
    · rw [if_pos h0]
      simp [hrec]

theorem postLoop_head_sent : ∀ (resp : Nat → PostResponse) (books : List Book) (i : Nat),
    books ≠ [] → 1 ≤ (postLoop resp i books).1.length := by
  intro resp books i h
  match books with
  | b :: rest =>
    simp only [postLoop]
    by_cases h409 : (resp i).status_code = 409
    · simp [h409]
    · by_cases h201 : (resp i).status_code = 201
      · simp [h409, h201]
      · simp [h409, h201]

theorem postLoop_len_ge : ∀ (resp : Nat → PostResponse) (books : List Book) (i k : Nat),
    (∀ j, j ≤ k → j < books.length → notFatal (resp (i + j))) →
    min books.length (k + 2) ≤ (postLoop resp i books).1.length := by
  intro resp books
  induction books with
  | nil => intro i k _; simp [postLoop]
  | cons b rest ih =>
    intro i k hok
    have h0 : notFatal (resp i) := by
      have := hok 0 (Nat.zero_le k) (by simp)
      rwa [Nat.add_zero] at this
    have hsucc : ∀ q : List PostPayload, q = (postLoop resp (i + 1) rest).1 →
        min (rest.length + 1) (k + 2) ≤ (payloadOf b :: q).length := by
      intro q hq
      match k with
      | 0 =>
        match rest with
        | [] => simp
        | r2 :: rest2 =>
          have h1 := postLoop_head_sent resp (r2 :: rest2) (i + 1) (by simp)
          simp only [List.length_cons, hq]
          omega
      | k + 1 =>
        have hrec := ih (i + 1) k (fun j hj hl => by
          have := hok (j + 1) (by omega) (by simp; omega)
          rwa [show i + (j + 1) = i + 1 + j from by omega] at this)
        simp only [List.length_cons, hq]
        omega
    simp only [postLoop]
    rcases h0 with h0 | h0
    · rw [if_neg (by simp [h0]), if_neg (by simp [h0])]
      exact hsucc _ rfl
    · rw [if_pos h0]
      exact hsucc _ rfl

theorem postLoop_409_mem : ∀ (resp : Nat → PostResponse) (books : List Book) (i k : Nat),
    k < books.length → (∀ j, j < k → notFatal (resp (i + j))) →
    (resp (i + k)).status_code = 409 →
    "already created" ∈ (postLoop resp i books).2 := by
  intro resp books
  induction books with
  | nil => intro i k hk _ _; simp at hk
  | cons b rest ih =>
    intro i k hk hok h409
    match k with
    | 0 =>
      rw [Nat.add_zero] at h409
      simp [postLoop, h409]
    | k + 1 =>
      have h0 : notFatal (resp i) := by
        have := hok 0 (by omega)
        rwa [Nat.add_zero] at this
      have hrec := ih (i + 1) k (by simpa using hk) (fun j hj => by
        have := hok (j + 1) (by omega)
        rwa [show i + (j + 1) = i + 1 + j from by omega] at this)
        (by rwa [show i + (k + 1) = i + 1 + k from by omega] at h409)
      simp only [postLoop]
      rcases h0 with h0 | h0
      · rw [if_neg (by simp [h0]), if_neg (by simp [h0])]
        exact hrec
      · rw [if_pos h0]
        exact List.mem_cons_of_mem _ hrec

theorem postLoop_fatal_at : ∀ (resp : Nat → PostResponse) (books : List Book) (i k : Nat),
    k < books.length → (∀ j, j < k → notFatal (resp (i + j))) →
    ¬ notFatal (resp (i + k)) →
    (postLoop resp i books).1 = (books.take (k + 1)).map payloadOf ∧
      ("post failed: " ++ toString (resp (i + k)).status_code) ∈ (postLoop resp i books).2 ∧
      (resp (i + k)).content ∈ (postLoop resp i books).2 := by
  intro resp books
  induction books with
  | nil => intro i k hk _ _; simp at hk
  | cons b rest ih =>
    intro i k hk hok hfat
    match k with
    | 0 =>
      rw [Nat.add_zero] at hfat
      unfold notFatal at hfat
      push_neg at hfat
      simp [postLoop, hfat.1, hfat.2]
    | k + 1 =>
      have h0 : notFatal (resp i) := by
        have := hok 0 (by omega)
        rwa [Nat.add_zero] at this
      have hshift : i + (k + 1) = i + 1 + k := by omega
      have hrec := ih (i + 1) k (by simpa using hk) (fun j hj => by
        have := hok (j + 1) (by omega)
        rwa [show i + (j + 1) = i + 1 + j from by omega] at this)
        (by rwa [hshift] at hfat)
      rw [hshift]
      simp only [postLoop]
      rcases h0 with h0 | h0
      · rw [if_neg (by simp [h0]), if_neg (by simp [h0])]
        simp only [List.take_succ_cons, List.map_cons]
        exact ⟨by rw [hrec.1], hrec.2.1, hrec.2.2⟩
      · rw [if_pos h0]
        simp only [List.take_succ_cons, List.map_cons]
        exact ⟨by rw [hrec.1], List.mem_cons_of_mem _ hrec.2.1,
          List.mem_cons_of_mem _ hrec.2.2⟩

/-! ### Concrete fixtures used by counterexamples and witnesses -/

/-- A page whose only content is the Adapter-B no-results phrase in a
paragraph: it stops the Adapter-B loop, and yields no records to any
adapter (so it also stops each Adapter-C category loop). -/
def stopPage : PageData :=
  { oreillyRows := [], paragraphs := [shoeishaNoResultsPhrase],
    shoeishaItems := [], gihyoItems := [] }

/-- A fetcher whose every response has the non-success HTTP status 500
(no `RequestException` is raised, as `requests.get` raises none for a
non-success status). -/
def fetch500 : String → Except ReqError Response :=
  fun _ => .ok { status_code := 500, text := stopPage }

/-- A fetcher whose every call times out. -/
def fetchTimeout : String → Except ReqError Response :=
  fun _ => .error (.timeout "timed out")

/-- A submission endpoint that always answers 201 Created. -/
def resp201 : Nat → PostResponse := fun _ => { status_code := 201, content := "" }

/-! ### The claims -/

/-- Claim C1, counterexample: the claim says a non-success HTTP status is
fatal to the run.  It is not: in a run where every fetched response has
status 500, the pipeline parses each 500 body like a normal page,
completes, and writes CSV output (here just the header), instead of
aborting with a non-zero exit. -/
theorem C1_counterexample :
    ScrapingTechBooks.main fetch500 none resp201 =
      .completed (some [["title", "isbn", "price", "url", "published_at", "publisher"]])
        none := by
  decide

/-- Claim C1 (amended): a transport failure raised by a fetch —
unreachable host or timeout — is fatal to the entire run: `main` catches
it, prints a diagnostic and exits with code 1, and no output (CSV rows or
submission) is produced.  A non-success HTTP status, however, is not
fatal: the response body is processed like a normal page (see the
counterexample). -/
theorem C1_transport_failure_fatal :
    ∀ (fetch : String → Except ReqError Response) (postArg : Option String)
      (resp : Nat → PostResponse) (e : ReqError),
    fetchPhase fetch = .error (.req e) →
    ScrapingTechBooks.main fetch postArg resp =
      .exitedWithError 1 ("RequestException error occurred: " ++ reqErrStr e) ∧
    ∀ rows posted, ScrapingTechBooks.main fetch postArg resp ≠ .completed rows posted := by
  intro fetch postArg resp e h
  constructor
  · simp [ScrapingTechBooks.main, h]
  · intro rows posted
    simp [ScrapingTechBooks.main, h]

/-- Witness for C1: a run whose first fetch times out exits with code 1
and the diagnostic message, producing nothing. -/
theorem C1_transport_failure_fatal_witness :
    ScrapingTechBooks.main fetchTimeout none resp201 =
      .exitedWithError 1 "RequestException error occurred: timed out" := by
  have h := C1_transport_failure_fatal fetchTimeout none resp201 (.timeout "timed out")
    (by decide)
  exact h.1

/-- Claim C2: `format_price` is total into an optional value: whenever
the input has a leftmost match of the numeral pattern, the result is the
JPY currency string of the matched digit group with thousands separators
removed (e.g. `"3,960円"` yields the currency string for 3960); whenever
nothing matches, the result is `None` — and the Adapter-B record is
still produced, with whatever `format_price` returned as its price. -/
theorem C2_format_price_total :
    (∀ (s g : String), searchPriceGroup true s = some g →
      format_price s true = some (format_currency_jpy (digitsToNat (stripCommas g)))) ∧
    format_price "3,960円" true = some (format_currency_jpy 3960) ∧
    (∀ s : String, searchPriceGroup true s = none → format_price s true = none) ∧
    format_price "お問い合わせください" true = none ∧
    (∀ (it : ShoeishaItem) (dt : Datetime), strptime it.dateStr fmtJa = .ok dt →
      analyze_shoeisha_books [it] =
        .ok [⟨it.title, it.isbn, format_price it.price true,
          urljoin SHOEISHA_BASE_URL it.url, withJst dt, "翔泳社"⟩]) := by
  refine ⟨?_, by decide, ?_, by decide, analyze_shoeisha_single⟩
  · intro s g h
    simp [format_price, h]
  · intro s h
    simp [format_price, h]

/-- Witness for C2 at concrete inputs: the matching price, the
non-matching price, and a record produced with an absent price. -/
theorem C2_format_price_total_witness :
    format_price "3,960円" true = some (format_currency_jpy (digitsToNat (stripCommas "3,960"))) ∧
    format_price "お問い合わせください" true = none ∧
    analyze_shoeisha_books
        [⟨"T", "2023年8月10日", "978-4-7981-0000-0", "お問い合わせください", "book/detail/1"⟩] =
      .ok [⟨"T", "978-4-7981-0000-0", none, urljoin SHOEISHA_BASE_URL "book/detail/1",
        withJst ⟨2023, 8, 10, 0, 0, 0, none⟩, "翔泳社"⟩] := by
  refine ⟨C2_format_price_total.1 "3,960円" "3,960" (by decide),
    C2_format_price_total.2.2.1 "お問い合わせください" (by decide), ?_⟩
  have h := C2_format_price_total.2.2.2.2
    ⟨"T", "2023年8月10日", "978-4-7981-0000-0", "お問い合わせください", "book/detail/1"⟩
    ⟨2023, 8, 10, 0, 0, 0, none⟩ (by decide)
  rw [h]
  decide

/-- Claim C3: each of the three site date formats parses its valid
example to the exact calendar date 2023-08-10, both at the `strptime`
level and through each adapter's `published_at` field. -/
theorem C3_date_formats :
    strptime "2023/08/10" fmtSlash = .ok ⟨2023, 8, 10, 0, 0, 0, none⟩ ∧
    strptime "2023年8月10日" fmtJa = .ok ⟨2023, 8, 10, 0, 0, 0, none⟩ ∧
    strptime "2023年8月10日発売" fmtJaSale = .ok ⟨2023, 8, 10, 0, 0, 0, none⟩ ∧
    (analyze_oreilly_books [⟨"isbn", "T", "1,000", "2023/08/10", "u"⟩]).map
        (List.map fun b => (b.published_at.year, b.published_at.month, b.published_at.day)) =
      .ok [(2023, 8, 10)] ∧
    (analyze_shoeisha_books [⟨"T", "2023年8月10日", "isbn", "1,000円", "u"⟩]).map
        (List.map fun b => (b.published_at.year, b.published_at.month, b.published_at.day)) =
      .ok [(2023, 8, 10)] ∧
    (analyze_gihyo_books [⟨"T", "1,000円", "2023年8月10日発売", "/book/978"⟩]).map
        (List.map fun b => (b.published_at.year, b.published_at.month, b.published_at.day)) =
      .ok [(2023, 8, 10)] := by
  decide

/-- Claim C10: on `"12345円"` (digit run longer than three, no
separators) the trailing-glyph pattern matches only the last three
digits, so `format_price` returns the currency string for the strict
partial amount 345 — neither absence nor the full number 12345. -/
theorem C10_partial_price_match :
    format_price "12345円" true = some (format_currency_jpy 345) ∧
    format_price "12345円" true ≠ none ∧
    format_currency_jpy 345 ≠ format_currency_jpy 12345 := by
  decide

/-- A page with zero Adapter-B catalog entries and no no-results phrase. -/
def pageNoPhrase : PageData :=
  { oreillyRows := [], paragraphs := ["書籍一覧"], shoeishaItems := [], gihyoItems := [] }

/-- Two-page Adapter-B site: page 0 empty but without the phrase, page 1
with the phrase. -/
def gB : Nat → Response :=
  fun p => if p = 0 then { status_code := 200, text := pageNoPhrase }
    else { status_code := 200, text := stopPage }

/-- Claim C4: `no_shoeisha_items_found` is true exactly when the fixed
no-results phrase occurs in a paragraph's text; in particular a page with
zero catalog entries but no phrase yields false.  The predicate is the
sole termination signal of the Adapter-B loop besides the 501-page cap:
when it is false on every page before `k` and true on page `k < 501`, the
loop fetches exactly the pages `0..k` — regardless of how many records
each page yielded, including zero — and never more than 501 pages. -/
theorem C4_no_results_predicate :
    (∀ ps : List String, no_shoeisha_items_found ps = true ↔
      ∃ p ∈ ps, shoeishaNoResultsPhrase.toList <:+: p.toList) ∧
    no_shoeisha_items_found [] = false ∧
    (∀ (g : Nat → Response) (bs : Nat → List Book) (k : Nat), k < 501 →
      (∀ p, p < k → no_shoeisha_items_found (g p).text.paragraphs = false) →
      (∀ p, p < k → analyze_shoeisha_books (g p).text.shoeishaItems = .ok (bs p)) →
      no_shoeisha_items_found (g k).text.paragraphs = true →
      shoeishaLoop (fun p => .ok (g p)) 0 501 =
        .ok (((List.range k).map bs).flatten, k + 1)) ∧
    (∀ (fp : Nat → Except ReqError Response) (out : List Book × Nat),
      shoeishaLoop fp 0 501 = .ok out → out.2 ≤ 501) := by
  refine ⟨?_, by decide, ?_, ?_⟩
  · intro ps
    simp [no_shoeisha_items_found]
  · intro g bs k hk hf ha hl
    have h := shoeishaLoop_stop g bs k 0 501 hk
      (fun p hp => by simpa using hf p hp)
      (fun p hp => by simpa using ha p hp)
      (by simpa using hl)
    simpa using h
  · intro fp out h
    exact shoeishaLoop_count_le fp 501 0 out h

/-- Witness for C4: the phrase-free empty page yields false, and the
loop on the two-page site continues past the zero-record page 0 and
stops exactly at page 1, fetching two pages. -/
theorem C4_no_results_predicate_witness :
    no_shoeisha_items_found pageNoPhrase.paragraphs = false ∧
    shoeishaLoop (fun p => .ok (gB p)) 0 501 = .ok ([], 2) := by
  refine ⟨by decide, ?_⟩
  have h := C4_no_results_predicate.2.2.1 gB (fun _ => []) 1 (by omega)
    (fun p hp => by
      have hp0 : p = 0 := by omega
      subst hp0
      decide)
    (fun p hp => by
      have hp0 : p = 0 := by omega
      subst hp0
      decide)
    (by decide)
  simpa using h

/-- A one-record Adapter-C page. -/
def pageOneGihyoItem : PageData :=
  { oreillyRows := [], paragraphs := [],
    shoeishaItems := [],
    gihyoItems := [⟨"T", "1,000円", "2023年8月10日発売", "/book/9784297"⟩] }

/-- Adapter-C category site: pages 0 and 1 yield one record, page 2
yields none. -/
def gC : Nat → Response :=
  fun p => if p < 2 then { status_code := 200, text := pageOneGihyoItem }
    else { status_code := 200, text := stopPage }

/-- What `analyze_gihyo_books` extracts from `pageOneGihyoItem`. -/
def gihyoBooks1 : List Book :=
  [⟨"T", "9784297", some (format_currency_jpy 1000), originOf GIHYO_BASE_URL ++ "/book/9784297",
    withJst ⟨2023, 8, 10, 0, 0, 0, none⟩, "技術評論社"⟩]

/-- Claim C5: the Adapter-C loop of the Driver starts at page 0, stops
exactly on the first page whose adapter invocation yields zero records
(pages yielding one or more records never stop it, and the zero-record
page contributes no records), fetches at most 101 pages, and the Driver
runs one such loop per category of the fixed category list, each with
its own page counter starting at 0. -/
theorem C5_gihyo_pagination :
    (∀ (g : Nat → Response) (bs : Nat → List Book) (k : Nat), k < 101 →
      (∀ p, p < k → analyze_gihyo_books (g p).text.gihyoItems = .ok (bs p)) →
      (∀ p, p < k → bs p ≠ []) →
      analyze_gihyo_books (g k).text.gihyoItems = .ok [] →
      gihyoLoop (fun p => .ok (g p)) 0 101 =
        .ok (((List.range k).map bs).flatten, k + 1)) ∧
    (∀ (fp : Nat → Except ReqError Response) (out : List Book × Nat),
      gihyoLoop fp 0 101 = .ok out → out.2 ≤ 101) ∧
    (∀ (fetch : String → Except ReqError Response) (c : String) (cs : List String),
      gihyoCats fetch (c :: cs) = do
        let q ← gihyoLoop (fun p => fetch (gihyoUrl c p)) 0 101
        let more ← gihyoCats fetch cs
        return q.1 ++ more) := by
  refine ⟨?_, ?_, ?_⟩
  · intro g bs k hk ha hne hz
    have h := gihyoLoop_stop g bs k 0 101 hk
      (fun p hp => by simpa using ha p hp)
      (fun p hp => by simpa using hne p hp)
      (by simpa using hz)
    simpa using h
  · intro fp out h
    exact gihyoLoop_count_le fp 101 0 out h
  · intro fetch c cs
    simp only [gihyoCats]

/-- Witness for C5: on the three-page category site the loop passes both
one-record pages, stops at the zero-record page 2, and fetches three
pages in total. -/
theorem C5_gihyo_pagination_witness :
    gihyoLoop (fun p => .ok (gC p)) 0 101 = .ok (gihyoBooks1 ++ gihyoBooks1, 3) := by
  have h := C5_gihyo_pagination.1 gC (fun _ => gihyoBooks1) 2 (by omega)
    (fun p hp => by
      have hp2 : p = 0 ∨ p = 1 := by omega
      rcases hp2 with hp0 | hp1
      · subst hp0
        decide
      · subst hp1
        decide)
    (fun p hp => by simp [gihyoBooks1])
    (by decide)
  simpa using h

def bookA : Book :=
  ⟨"A", "isbn-a", none, "https://example.com/a", ⟨2023, 1, 1, 0, 0, 0, some 540⟩, "翔泳社"⟩

def bookB : Book :=
  ⟨"B", "isbn-b", none, "https://example.com/b", ⟨2023, 1, 2, 0, 0, 0, some 540⟩, "翔泳社"⟩

def bookC : Book :=
  ⟨"C", "isbn-c", none, "https://example.com/c", ⟨2023, 1, 3, 0, 0, 0, some 540⟩, "翔泳社"⟩

/-- Endpoint answering 409 to the second submission, 201 otherwise. -/
def resp409at1 : Nat → PostResponse :=
  fun i => if i = 1 then { status_code := 409, content := "" }
    else { status_code := 201, content := "" }

/-- Endpoint answering 500 to the second submission, 201 otherwise. -/
def resp500at1 : Nat → PostResponse :=
  fun i => if i = 1 then { status_code := 500, content := "server error" }
    else { status_code := 201, content := "" }

/-- Claim C6: `post_books` submits the Books in accumulation order (the
submitted payloads are always a prefix of the payload list); when every
response is 201 or 409 all Books are submitted; a 409 is logged as
already existing and the following submissions still happen; a response
that is neither 201 nor 409 stops the loop right after that submission,
logging the status and the response body. -/
theorem C6_submission_policy :
    ∀ (resp : Nat → PostResponse) (books : List Book),
    ((post_books resp books).1 =
      (books.map payloadOf).take (post_books resp books).1.length) ∧
    ((∀ j, j < books.length → notFatal (resp j)) →
      (post_books resp books).1 = books.map payloadOf) ∧
    (∀ k, k < books.length → (∀ j, j < k → notFatal (resp j)) →
      (resp k).status_code = 409 →
      "already created" ∈ (post_books resp books).2 ∧
      min books.length (k + 2) ≤ (post_books resp books).1.length) ∧
    (∀ k, k < books.length → (∀ j, j < k → notFatal (resp j)) → ¬ notFatal (resp k) →
      (post_books resp books).1 = (books.take (k + 1)).map payloadOf ∧
      ("post failed: " ++ toString (resp k).status_code) ∈ (post_books resp books).2 ∧
      (resp k).content ∈ (post_books resp books).2) := by
  intro resp books
  refine ⟨postLoop_sends_in_order resp books 0, ?_, ?_, ?_⟩
  · intro h
    exact postLoop_all_ok resp books 0 (fun j hj => by simpa using h j hj)
  · intro k hk hpre h409
    constructor
    · exact postLoop_409_mem resp books 0 k hk (fun j hj => by simpa using hpre j hj)
        (by simpa using h409)
    · refine postLoop_len_ge resp books 0 k (fun j hjk hjl => ?_)
      rcases Nat.lt_or_ge j k with hj | hj
      · simpa using hpre j hj
      · have hjeq : j = k := by omega
        subst hjeq
        simpa [notFatal] using Or.inr h409
  · intro k hk hpre hfat
    have h := postLoop_fatal_at resp books 0 k hk (fun j hj => by simpa using hpre j hj)
      (by simpa using hfat)
    simpa using h

/-- Witness for C6: with three Books, a 409 on the second submission is
logged and all three are still submitted; a 500 on the second stops the
run after the second submission, logging status and body. -/
theorem C6_submission_policy_witness :
    ("already created" ∈ (post_books resp409at1 [bookA, bookB, bookC]).2 ∧
      3 ≤ (post_books resp409at1 [bookA, bookB, bookC]).1.length) ∧
    ((post_books resp500at1 [bookA, bookB, bookC]).1 = [payloadOf bookA, payloadOf bookB] ∧
      "post failed: 500" ∈ (post_books resp500at1 [bookA, bookB, bookC]).2 ∧
      "server error" ∈ (post_books resp500at1 [bookA, bookB, bookC]).2) := by
  constructor
  · have h := (C6_submission_policy resp409at1 [bookA, bookB, bookC]).2.2.1 1 (by decide)
      (fun j hj => by
        have hj0 : j = 0 := by omega
        subst hj0
        exact Or.inl rfl)
      rfl
    simpa using h
  · have h := (C6_submission_policy resp500at1 [bookA, bookB, bookC]).2.2.2 1 (by decide)
      (fun j hj => by
        have hj0 : j = 0 := by omega
        subst hj0
        exact Or.inl rfl)
      (by decide)
    simpa using h

/-- An Adapter-A row whose date text does not match the slash format. -/
def badDateRow : OreillyRow := ⟨"isbn", "T", "1,000", "2023-08-10", "u"⟩

/-- A page whose Adapter-A table contains the bad-date row (and which
stops the other two sites' loops immediately). -/
def pageBadDate : PageData :=
  { oreillyRows := [badDateRow], paragraphs := [shoeishaNoResultsPhrase],
    shoeishaItems := [], gihyoItems := [] }

/-- A fetcher serving `pageBadDate` everywhere. -/
def fetchBadDate : String → Except ReqError Response :=
  fun _ => .ok { status_code := 200, text := pageBadDate }

/-- Claim C7: a date-pattern mismatch is a hard failure for the page in
all three adapters (a page containing a record with unparsable date text
makes the whole adapter call fail, so no record of that page survives),
the resulting `ValueError` is not caught by `main`'s network-error
handlers (the run ends as an uncaught exception, not as the handled
`exit(1)` path), and no adapter ever produces a Book whose
`published_at` is not a valid calendar date. -/
theorem C7_date_mismatch_hard :
    (∀ rows : List OreillyRow, (∃ r ∈ rows, ∃ e, strptime r.dateStr fmtSlash = .error e) →
      ∃ e2, analyze_oreilly_books rows = .error e2) ∧
    (∀ items : List ShoeishaItem, (∃ r ∈ items, ∃ e, strptime r.dateStr fmtJa = .error e) →
      ∃ e2, analyze_shoeisha_books items = .error e2) ∧
    (∀ items : List GihyoItem, (∃ r ∈ items, ∃ e, strptime r.dateStr fmtJaSale = .error e) →
      ∃ e2, analyze_gihyo_books items = .error e2) ∧
    (∀ (fetch : String → Except ReqError Response) (postArg : Option String)
      (resp : Nat → PostResponse) (e : PyErr), fetchPhase fetch = .error (.py e) →
      ScrapingTechBooks.main fetch postArg resp = .uncaught e) ∧
    (∀ (rows : List OreillyRow) (books : List Book), analyze_oreilly_books rows = .ok books →
      ∀ b ∈ books, validBookDate b.published_at) := by
  refine ⟨analyze_oreilly_error_of_bad_date, analyze_shoeisha_error_of_bad_date,
    analyze_gihyo_error_of_bad_date, ?_, ?_⟩
  · intro fetch postArg resp e h
    simp [ScrapingTechBooks.main, h]
  · intro rows books h b hb
    exact (analyze_oreilly_ok_dates rows books h b hb).1

/-- Witness for C7: the bad-date row makes the Adapter-A call fail, and
a run that serves it ends as an uncaught `ValueError`, not through the
network-error handlers. -/
theorem C7_date_mismatch_hard_witness :
    (∃ e2, analyze_oreilly_books [badDateRow] = .error e2) ∧
    ScrapingTechBooks.main fetchBadDate none resp201 =
      .uncaught (.dateError "time data 2023-08-10 does not match format") := by
  constructor
  · exact C7_date_mismatch_hard.1 [badDateRow]
      ⟨badDateRow, by simp, "time data 2023-08-10 does not match format", by decide⟩
  · exact C7_date_mismatch_hard.2.2.2.1 fetchBadDate none resp201
      (.dateError "time data 2023-08-10 does not match format") (by decide)

/-- Claim C8, counterexample: the claim says the re-encoding round-trip
never fails for any input title.  It does fail: the strict latin-1
encode step raises on any character above U+00FF, e.g. the title `"日"`
fails the whole page. -/
theorem C8_counterexample :
    reencode "日" = .error (.encodeError "latin-1 codec cannot encode character") ∧
    analyze_oreilly_books [⟨"isbn", "日", "1,000", "2023/08/10", "u"⟩] =
      .error (.encodeError "latin-1 codec cannot encode character") := by
  decide

/-- Claim C8 (amended): for every title whose characters all lie in
U+0000..U+00FF — the only inputs the strict latin-1 encode accepts — the
round-trip never fails, and undecodable residue is dropped by the
`errors="ignore"` decode rather than failing the title (mojibake bytes
of `"本"` are recovered; a lone lead byte decodes to the empty string);
a title containing any character above U+00FF makes the encode step
itself raise, failing the page. -/
theorem C8_reencode_total_on_latin1 :
    (∀ s : String, (∀ c ∈ s.toList, c.toNat ≤ 255) → ∃ t, reencode s = .ok t) ∧
    reencode (String.mk [Char.ofNat 0xE6, Char.ofNat 0x9C, Char.ofNat 0xAC]) = .ok "本" ∧
    reencode (String.mk [Char.ofNat 0xE6]) = .ok "" ∧
    (∀ s : String, (∃ c ∈ s.toList, 255 < c.toNat) →
      reencode s = .error (.encodeError "latin-1 codec cannot encode character")) := by
  refine ⟨?_, by decide, by decide, ?_⟩
  · intro s h
    have hall : (s.toList.all fun c => c.toNat ≤ 255) = true := by
      rw [List.all_eq_true]
      intro c hc
      simpa using h c hc
    refine ⟨String.mk (utf8DecodeIgnore (s.toList.map Char.toNat)), ?_⟩
    simp only [reencode, encodeLatin1]
    rw [if_pos hall]
    rfl
  · rintro s ⟨c, hc, hgt⟩
    have hall : ¬ (s.toList.all fun c => c.toNat ≤ 255) = true := by
      simp only [List.all_eq_true, not_forall]
      exact ⟨c, hc, by simpa using hgt⟩
    simp only [reencode, encodeLatin1]
    rw [if_neg hall]
    rfl

/-- Witness for C8: a latin-1-range title round-trips, a title above the
range fails the encode step. -/
theorem C8_reencode_total_on_latin1_witness :
    (∃ t, reencode "abc" = .ok t) ∧
    reencode "日本" = .error (.encodeError "latin-1 codec cannot encode character") := by
  constructor
  · exact C8_reencode_total_on_latin1.1 "abc" (by decide)
  · exact C8_reencode_total_on_latin1.2.2.2 "日本" (by decide)

/-- Claim C9: every Book any of the three adapters emits has a
`published_at` that is a valid proleptic-Gregorian calendar date, and
its time-of-day and zone parts are the fixed constants (midnight,
+09:00) — the value carries no information beyond year, month, day. -/
theorem C9_published_at_day_precision :
    (∀ (rows : List OreillyRow) (books : List Book),
      analyze_oreilly_books rows = .ok books →
      ∀ b ∈ books, validBookDate b.published_at ∧ dayPrecisionJst b.published_at) ∧
    (∀ (items : List ShoeishaItem) (books : List Book),
      analyze_shoeisha_books items = .ok books →
      ∀ b ∈ books, validBookDate b.published_at ∧ dayPrecisionJst b.published_at) ∧
    (∀ (items : List GihyoItem) (books : List Book),
      analyze_gihyo_books items = .ok books →
      ∀ b ∈ books, validBookDate b.published_at ∧ dayPrecisionJst b.published_at) :=
  ⟨analyze_oreilly_ok_dates, analyze_shoeisha_ok_dates, analyze_gihyo_ok_dates⟩

/-- The Book produced from the ordinary Adapter-A example row. -/
def bookFromRow : Book :=
  ⟨"T", "isbn", some (format_currency_jpy 1000), OREILLY_BASE_URL ++ "u",
    withJst ⟨2023, 8, 10, 0, 0, 0, none⟩, "オライリー・ジャパン"⟩

/-- Witness for C9 at a concrete Adapter-A page. -/
theorem C9_published_at_day_precision_witness :
    validBookDate bookFromRow.published_at ∧ dayPrecisionJst bookFromRow.published_at := by
  exact C9_published_at_day_precision.1 [⟨"isbn", "T", "1,000", "2023/08/10", "u"⟩]
    [bookFromRow] (by decide) bookFromRow (by simp)

end ScrapingTechBooks
